import Mathlib

/-!
Shallow embedding of the `eth-abi` Rust crate (`src/eth-abi/src/lib.rs`):
the `ParamType` descriptor enum with its parser and dynamic-ness predicates,
the single-value encoder `encode_single` with its helpers (`parse_bytes`,
the `rustc_hex` hex decoder, the `U256` decimal parser and big-endian
conversions), and the `Params::encode` assembler.

Conventions of the embedding:
- bytes are `Nat` values below 256, byte buffers are `List Nat`;
- `U256` arithmetic is `Nat` with explicit `% 2 ^ 256` where wrap-around
  matters;
- Rust `Result<T, String>` is `Except String T`;
- a Rust panic (a failed `unwrap()` or a violated library assertion) is
  modelled by the outer `Option` being `none`, so fallible encoder entry
  points return `Option (Except String (List Nat))`;
- error strings keep the constant text of the `format!` templates; the
  `Debug` rendering of a foreign-library error value (`ParseIntError`) is
  abbreviated to the fixed text `"ParseIntError"`.
-/

/-- Function parameter type enum (`ParamType` in the source). -/
inductive ParamType where
  | Address : ParamType
  | Bytes : ParamType
  | Int (m : Nat) : ParamType
  | Uint (m : Nat) : ParamType
  | Bool : ParamType
  | Fixed (m : Nat) (n : Nat) : ParamType
  | Ufixed (m : Nat) (n : Nat) : ParamType
  | String : ParamType
  | Array (subtype : ParamType) : ParamType
  | FixedBytes (m : Nat) : ParamType
  | FixedArray (subtype : ParamType) (len : Nat) : ParamType
  | Tuple (subtypes : List ParamType) : ParamType

mutual

/-- Rust `derive(Debug)` rendering of a `ParamType` value (used in error
`format!` strings; `Box` prints its contents, `Vec` prints `[a, b]`). -/
def debugRepr : ParamType → String
  | ParamType.Address => "Address"
  | ParamType.Bytes => "Bytes"
  | ParamType.Int m => "Int(" ++ Nat.repr m ++ ")"
  | ParamType.Uint m => "Uint(" ++ Nat.repr m ++ ")"
  | ParamType.Bool => "Bool"
  | ParamType.Fixed m n => "Fixed(" ++ Nat.repr m ++ ", " ++ Nat.repr n ++ ")"
  | ParamType.Ufixed m n => "Ufixed(" ++ Nat.repr m ++ ", " ++ Nat.repr n ++ ")"
  | ParamType.String => "String"
  | ParamType.Array subtype => "Array(" ++ debugRepr subtype ++ ")"
  | ParamType.FixedBytes m => "FixedBytes(" ++ Nat.repr m ++ ")"
  | ParamType.FixedArray subtype len =>
      "FixedArray(" ++ debugRepr subtype ++ ", " ++ Nat.repr len ++ ")"
  | ParamType.Tuple subtypes => "Tuple([" ++ debugReprList subtypes ++ "])"

/-- Debug rendering of the element list of a `Tuple`. -/
def debugReprList : List ParamType → String
  | [] => ""
  | [t] => debugRepr t
  | t :: rest => debugRepr t ++ ", " ++ debugReprList rest

end

/-- `ParamType::value_length`: padded value length (the source returns 32
unconditionally, ignoring both the type and the value string). -/
def value_length (_t : ParamType) (_value_str : String) : Nat := 32

/-- `ParamType::maybe_dynamic`: whether the type can be dynamic. -/
def maybe_dynamic : ParamType → Bool
  | ParamType.Bytes => true
  | ParamType.String => true
  | ParamType.Array _ => true
  | ParamType.FixedArray _ _ => true
  | ParamType.Tuple _ => true
  | _ => false

mutual

/-- `ParamType::is_dynamic`: whether the type is dynamic.  The source's
`FixedArray(subtype, len) if *len > 0` and `Tuple(subtypes) if len > 0`
match guards are rendered as conditionals whose else-branches fall through
to the catch-all `false`. -/
def is_dynamic : ParamType → Bool
  | ParamType.Bytes => true
  | ParamType.String => true
  | ParamType.Array _ => true
  | ParamType.FixedArray subtype len =>
      if len > 0 then is_dynamic subtype else false
  | ParamType.Tuple subtypes =>
      if subtypes.length > 0 then anyDynamic subtypes else false
  | _ => false

/-- `subtypes.iter().any(|t| t.is_dynamic())` in `ParamType::is_dynamic`. -/
def anyDynamic : List ParamType → Bool
  | [] => false
  | t :: rest => is_dynamic t || anyDynamic rest

end

/-- Rust `str::starts_with` (on characters; the literals involved are
ASCII, so the byte-level and character-level views agree). -/
def starts_with (s pre : String) : Bool := List.isPrefixOf pre.data s.data

/-- Rust `str::ends_with`. -/
def ends_with (s suf : String) : Bool := List.isSuffixOf suf.data s.data

/-- Byte slice `&s[n..]` of an ASCII string, as characters. -/
def str_drop (s : String) (n : Nat) : String := (s.data.drop n).asString

/-- Byte slice `&s[..n]` of an ASCII string, as characters. -/
def str_take (s : String) (n : Nat) : String := (s.data.take n).asString

/-- Rust `str::parse::<usize>()`: optional leading `+`, then a nonempty
run of ASCII digits, rejecting values that do not fit in 64 bits. -/
def parse_usize (s : String) : Option Nat :=
  let digits := match s.data with
    | '+' :: rest => rest
    | other => other
  if digits.isEmpty then none
  else if digits.all Char.isDigit then
    let v := digits.foldl (fun acc c => acc * 10 + (c.toNat - 48)) 0
    if v < 2 ^ 64 then some v else none
  else none

/-- `ParamType::from_str`, with an explicit recursion-depth fuel (each
recursive call in the source strips at least two characters, so
`s.length + 1` fuel always suffices). -/
def from_str_fuel : Nat → String → Except String ParamType
  | 0, s => Except.error ("Invalid param type: " ++ s)
  | fuel + 1, s =>
    if ends_with s "[]" then
      match from_str_fuel fuel (str_take s (s.data.length - 2)) with
      | Except.ok subtype => Except.ok (ParamType.Array subtype)
      | Except.error e => Except.error e
    else if s.data.getLast? = some ']' then
      let num := (((s.data.reverse.drop 1).takeWhile (fun c => c != '[')).reverse).asString
      match parse_usize num with
      | none => Except.error ("Invalid param type: " ++ s ++ ", ParseIntError")
      | some len =>
        match from_str_fuel fuel (str_take s (s.data.length - num.data.length - 2)) with
        | Except.ok subtype => Except.ok (ParamType.FixedArray subtype len)
        | Except.error e => Except.error e
    else if s = "address" then Except.ok ParamType.Address
    else if s = "bool" then Except.ok ParamType.Bool
    else if s = "bytes" then Except.ok ParamType.Bytes
    else if s = "string" then Except.ok ParamType.String
    else if s = "int" then Except.ok (ParamType.Int 256)
    else if s = "uint" then Except.ok (ParamType.Uint 256)
    else if starts_with s "int" then
      match parse_usize (str_drop s 3) with
      | none => Except.error ("Invalid param type: " ++ s ++ ", ParseIntError")
      | some len =>
        if len < 8 ∨ len > 256 ∨ len % 8 ≠ 0 then
          Except.error ("Invalid param type: " ++ s)
        else Except.ok (ParamType.Int len)
    else if starts_with s "uint" then
      match parse_usize (str_drop s 4) with
      | none => Except.error ("Invalid param type: " ++ s ++ ", ParseIntError")
      | some len =>
        if len < 8 ∨ len > 256 ∨ len % 8 ≠ 0 then
          Except.error ("Invalid param type: " ++ s)
        else Except.ok (ParamType.Uint len)
    else if starts_with s "bytes" then
      match parse_usize (str_drop s 4) with
      | none => Except.error ("Invalid param type: " ++ s ++ ", ParseIntError")
      | some len =>
        if len ≤ 0 ∨ len > 32 then
          Except.error ("Invalid param type: " ++ s)
        else Except.ok (ParamType.FixedBytes len)
    else Except.error ("Invalid param type: " ++ s)

/-- `ParamType::from_str`: parse a type from its string form. -/
def from_str (s : String) : Except String ParamType :=
  from_str_fuel (s.data.length + 1) s

/-- One hex digit's value, as in the `rustc_hex` decoder's byte match. -/
def hexDigit (c : Char) : Option Nat :=
  if 48 ≤ c.toNat ∧ c.toNat ≤ 57 then some (c.toNat - 48)
  else if 97 ≤ c.toNat ∧ c.toNat ≤ 102 then some (c.toNat - 87)
  else if 65 ≤ c.toNat ∧ c.toNat ≤ 70 then some (c.toNat - 55)
  else none

/-- Loop of `rustc_hex`'s `from_hex`: accumulate nibbles into a `u8`
buffer, emit a byte every second hex digit, skip ASCII whitespace, reject
any other character, and reject an odd number of hex digits at the end. -/
def from_hex_go : List Char → Nat → Nat → List Nat → Option (List Nat)
  | [], modulus, _, acc => if modulus = 0 then some acc.reverse else none
  | c :: rest, modulus, buf, acc =>
    if c = ' ' ∨ c = '\r' ∨ c = '\n' ∨ c = '\t' then
      from_hex_go rest modulus buf acc
    else
      match hexDigit c with
      | none => none
      | some d =>
        let buf2 := (buf * 16 + d) % 256
        if modulus + 1 = 2 then from_hex_go rest 0 buf2 (buf2 :: acc)
        else from_hex_go rest (modulus + 1) buf2 acc

/-- `rustc_hex::FromHex::from_hex` on a string slice. -/
def from_hex (s : String) : Option (List Nat) :=
  from_hex_go s.data 0 0 []

/-- Big-endian value of a byte list (`bytes` most significant first). -/
def beValue (bs : List Nat) : Nat := bs.foldl (fun acc b => acc * 256 + b) 0

/-- `ethereum_types::U256::from(&[u8])`: big-endian conversion that
panics (here `none`) when the slice is longer than 32 bytes. -/
def u256_from_big_endian (bs : List Nat) : Option Nat :=
  if bs.length ≤ 32 then some (beValue bs) else none

/-- `ethereum_types::U256::from_dec_str`: every character must be an
ASCII digit and the value must fit in 256 bits. -/
def from_dec_str (s : String) : Option Nat :=
  if s.data.all Char.isDigit then
    let v := s.data.foldl (fun acc c => acc * 10 + (c.toNat - 48)) 0
    if v < 2 ^ 256 then some v else none
  else none

/-- `U256::to_big_endian` into a fixed 32-byte buffer. -/
def to_big_endian (v : Nat) : List Nat :=
  (List.range 32).map (fun i => v / 256 ^ (31 - i) % 256)

/-- UTF-8 encoding of one character (Rust `str::as_bytes` views the
string through this encoding). -/
def utf8EncodeChar (c : Char) : List Nat :=
  let n := c.toNat
  if n < 128 then [n]
  else if n < 2048 then [192 + n / 64, 128 + n % 64]
  else if n < 65536 then [224 + n / 4096, 128 + n / 64 % 64, 128 + n % 64]
  else [240 + n / 262144, 128 + n / 4096 % 64, 128 + n / 64 % 64, 128 + n % 64]

/-- Rust `str::as_bytes().to_vec()`: the UTF-8 bytes of the string. -/
def utf8Bytes (s : String) : List Nat := s.data.flatMap utf8EncodeChar

/-- Right-padding with zero bytes to a 32-byte boundary, as done at the
end of `parse_bytes`. -/
def pad32 (bs : List Nat) : List Nat :=
  if bs.length % 32 > 0 then bs ++ List.replicate (32 - bs.length % 32) 0 else bs

/-- `parse_bytes`: hex-decode the literal when it has a `0x` prefix
(panicking, i.e. `none`, on bad hex), else take its raw text bytes;
return the unpadded length together with the zero-padded bytes. -/
def parse_bytes (value_str : String) : Option (Nat × List Nat) :=
  match (if starts_with value_str "0x" then from_hex (str_drop value_str 2)
         else some (utf8Bytes value_str)) with
  | none => none
  | some value_bytes => some (value_bytes.length, pad32 value_bytes)

/-- Decimal digit characters of `n`, most significant first (the
rendering used by Rust's `Display` for integers); structural fuel, with
`n` itself always sufficient. -/
def dec_chars_fuel : Nat → Nat → List Char
  | 0, _ => []
  | _ + 1, 0 => []
  | fuel + 1, n => dec_chars_fuel fuel (n / 10) ++ [Char.ofNat (48 + n % 10)]

/-- `format!` of a nonnegative integer in decimal. -/
def dec_repr (n : Nat) : String :=
  if n = 0 then "0" else (dec_chars_fuel n n).asString

/-- `encode_single` with recursion-depth fuel.  The source recursion has
depth at most 2 (`Address`, `Bool`, `Bytes` and `String` delegate once to
the `Uint` arm, which does not recurse), so fuel 3 is never exhausted
when entered through `encode_single`.

The `Uint`/`Int` arm first resolves the literal to a sign flag and a
`U256` magnitude exactly as the source's cascaded `if` does — hex after a
`0x` prefix via `from_hex` then `U256::from` (either step's failure is a
panic), a `-`-prefixed literal is an error for `Uint` and a decimal parse
of the rest for `Int`, anything else a decimal parse — then applies the
source's overflow check `m < 256 && value >= 2.pow(m)`, negates by
two's complement (`(!value) + 1`, i.e. modulo `2 ^ 256`) when the sign
flag is set, and emits the 32 big-endian bytes. -/
def encode_single_fuel : Nat → ParamType → String → Option (Except String (List Nat))
  | 0, _, _ => none
  | fuel + 1, param_type, value_str =>
    match param_type with
    | ParamType.Address =>
      let value_bytes := if starts_with value_str "0x" then str_drop value_str 2 else value_str
      encode_single_fuel fuel (ParamType.Uint 160) value_bytes
    | ParamType.Uint m | ParamType.Int m =>
      let step : Option (Except String (Bool × Nat)) :=
        if starts_with value_str "0x" then
          match from_hex (str_drop value_str 2) with
          | none => none
          | some bytes =>
            match u256_from_big_endian bytes with
            | none => none
            | some value => some (Except.ok (false, value))
        else if starts_with value_str "-" then
          match param_type with
          | ParamType.Uint _ =>
            some (Except.error
              ("Invalid value=" ++ value_str ++ " for type=" ++ debugRepr param_type))
          | _ =>
            match from_dec_str (str_drop value_str 1) with
            | none => none
            | some value => some (Except.ok (true, value))
        else
          match from_dec_str value_str with
          | none => none
          | some value => some (Except.ok (false, value))
      match step with
      | none => none
      | some (Except.error e) => some (Except.error e)
      | some (Except.ok (negative, value)) =>
        if m < 256 ∧ value ≥ 2 ^ m then
          some (Except.error
            ("Overflow value=" ++ value_str ++ ", type=" ++ debugRepr param_type))
        else
          let value2 := if negative then ((2 ^ 256 - 1 - value) + 1) % 2 ^ 256 else value
          some (Except.ok (to_big_endian value2))
    | ParamType.Bool =>
      match (if value_str = "true" then some "1"
             else if value_str = "false" then some "0" else none) with
      | none => some (Except.error ("Invalid value for bool: " ++ value_str))
      | some mapped => encode_single_fuel fuel (ParamType.Uint 8) mapped
    | ParamType.Fixed _ _ => some (Except.ok [])
    | ParamType.Ufixed _ _ => some (Except.ok [])
    | ParamType.FixedBytes m =>
      match parse_bytes value_str with
      | none => none
      | some (len, value_bytes) =>
        if len > m then some (Except.error ("Error value length: value=" ++ value_str))
        else some (Except.ok value_bytes)
    | ParamType.Bytes =>
      match parse_bytes value_str with
      | none => none
      | some (len, value_bytes) =>
        if len > value_str.data.length then
          some (Except.error ("Value is not bytes: " ++ value_str))
        else
          match encode_single_fuel fuel (ParamType.Uint 256) (dec_repr len) with
          | some (Except.ok len_word) => some (Except.ok (len_word ++ value_bytes))
          | _ => none
    | ParamType.String =>
      match parse_bytes value_str with
      | none => none
      | some (len, value_bytes) =>
        match encode_single_fuel fuel (ParamType.Uint 256) (dec_repr len) with
        | some (Except.ok len_word) => some (Except.ok (len_word ++ value_bytes))
        | _ => none
    | other => some (Except.error ("Cannot encode single dynamic type: " ++ debugRepr other))

/-- `encode_single`: encode a single value by type.  `none` models a
panic; `some` carries the source's `Result`. -/
def encode_single (param_type : ParamType) (value_str : String) :
    Option (Except String (List Nat)) :=
  encode_single_fuel 3 param_type value_str

/-- The `ParamItem` enum local to `Params::encode`. -/
inductive ParamItem where
  | Fixed (param_type : ParamType) (value_str : String) : ParamItem
  | Dynamic (offset : Option Nat) (param_type : ParamType) (value_str : String) : ParamItem

/-- Body of one iteration of the `while` loop in `Params::encode`: walk
the items, stamping each `Dynamic` item's offset with the running
`total_offset` and advancing it by `32 + value_length`; `Fixed` items are
left untouched.  Returns the rewritten items and the new offset. -/
def loopBody : List ParamItem → Nat → List ParamItem × Nat
  | [], total_offset => ([], total_offset)
  | ParamItem.Dynamic _ param_type value_str :: rest, total_offset =>
    let next := loopBody rest (total_offset + 32 + value_length param_type value_str)
    (ParamItem.Dynamic (some total_offset) param_type value_str :: next.fst, next.snd)
  | item :: rest, total_offset =>
    let next := loopBody rest total_offset
    (item :: next.fst, next.snd)

/-- The `while !items.is_empty()` loop of `Params::encode`, with fuel.
Each iteration runs `loopBody` for its `total_offset` bookkeeping, then
replaces `items` by `next_items` — which the source never pushes anything
into, so it is the empty vector — and never touches `buf`. -/
def encodeLoopFuel : Nat → List ParamItem → Nat → List Nat → List Nat
  | 0, _, _, buf => buf
  | fuel + 1, items, total_offset, buf =>
    match items with
    | [] => buf
    | _ :: _ =>
      let stamped := loopBody items total_offset
      let next_items : List ParamItem := []
      encodeLoopFuel fuel next_items stamped.snd buf

/-- `Params::encode`: the first pass classifies each `(type, value)` pair
as `Fixed` or `Dynamic` while accumulating `total_offset`, then the
`while` loop runs with an initially empty `buf`, which is returned. -/
def Params.encode (items0 : List (ParamType × String)) : Except String (List Nat) :=
  let total_offset := items0.foldl
    (fun acc pv => if maybe_dynamic pv.fst then acc + 32 else acc + value_length pv.fst pv.snd) 0
  let items : List ParamItem := items0.map
    (fun pv => if maybe_dynamic pv.fst then ParamItem.Dynamic none pv.fst pv.snd
               else ParamItem.Fixed pv.fst pv.snd)
  let buf : List Nat := []
  Except.ok (encodeLoopFuel (items.length + 1) items total_offset buf)

mutual

/-- Dynamic-ness as the specification words it: `Bytes`, `String` and
`Array(_)` are dynamic; `FixedArray(e, n)` is dynamic when `n > 0` and
`e` is dynamic; `Tuple(members)` is dynamic when at least one member is;
every other form is static. -/
def dynamicSpec : ParamType → Bool
  | ParamType.Bytes => true
  | ParamType.String => true
  | ParamType.Array _ => true
  | ParamType.FixedArray e n => decide (n > 0) && dynamicSpec e
  | ParamType.Tuple members => anyDynamicSpec members
  | _ => false

/-- At least one member of the list is dynamic in the spec's sense. -/
def anyDynamicSpec : List ParamType → Bool
  | [] => false
  | t :: rest => dynamicSpec t || anyDynamicSpec rest

end

mutual

/-- The source `is_dynamic` agrees with the specification's structural
characterisation on every descriptor. -/
theorem is_dynamic_eq_spec : (t : ParamType) → is_dynamic t = dynamicSpec t
  | ParamType.Address => rfl
  | ParamType.Bytes => rfl
  | ParamType.Int _ => rfl
  | ParamType.Uint _ => rfl
  | ParamType.Bool => rfl
  | ParamType.Fixed _ _ => rfl
  | ParamType.Ufixed _ _ => rfl
  | ParamType.String => rfl
  | ParamType.Array _ => rfl
  | ParamType.FixedBytes _ => rfl
  | ParamType.FixedArray e n => by
      cases n with
      | zero => simp [is_dynamic, dynamicSpec]
      | succ k => simp [is_dynamic, dynamicSpec, is_dynamic_eq_spec e]
  | ParamType.Tuple members => by
      cases members with
      | nil => simp [is_dynamic, dynamicSpec, anyDynamicSpec]
      | cons t rest =>
          simp [is_dynamic, dynamicSpec, anyDynamic, anyDynamicSpec,
            is_dynamic_eq_spec t, any_dynamic_eq_spec rest]

/-- The source's `any` fold agrees with the spec-side fold. -/
theorem any_dynamic_eq_spec : (l : List ParamType) → anyDynamic l = anyDynamicSpec l
  | [] => rfl
  | t :: rest => by
      rw [anyDynamic, anyDynamicSpec, is_dynamic_eq_spec t, any_dynamic_eq_spec rest]

end

/-- A decimal digit rendered at code point `48 + d` is a digit character
whose code point survives the `Char.ofNat` round trip. -/
theorem char_digit_spec (d : Nat) (h : d < 10) :
    (Char.ofNat (48 + d)).toNat = 48 + d ∧ (Char.ofNat (48 + d)).isDigit = true := by
  interval_cases d <;> exact ⟨rfl, rfl⟩

/-- Every character produced by `dec_chars_fuel` is an ASCII digit. -/
theorem dec_chars_all_digits : (fuel n : Nat) → (dec_chars_fuel fuel n).all Char.isDigit = true
  | 0, _ => rfl
  | _ + 1, 0 => rfl
  | fuel + 1, n + 1 => by
      rw [show dec_chars_fuel (fuel + 1) (n + 1) =
        dec_chars_fuel fuel ((n + 1) / 10) ++ [Char.ofNat (48 + (n + 1) % 10)] from rfl]
      rw [List.all_append]
      rw [dec_chars_all_digits fuel ((n + 1) / 10)]
      simp [(char_digit_spec ((n + 1) % 10) (Nat.mod_lt _ (by norm_num))).2]

/-- Folding the decimal-parse step over the digit characters of `n`
recovers `n` (with the accumulator shifted by the digit count). -/
theorem dec_chars_foldl : (fuel n : Nat) → n ≤ fuel → (acc : Nat) →
    (dec_chars_fuel fuel n).foldl (fun a c => a * 10 + (c.toNat - 48)) acc =
      acc * 10 ^ (dec_chars_fuel fuel n).length + n
  | 0, n, hn, acc => by
      have : n = 0 := Nat.le_zero.mp hn
      subst this
      simp [dec_chars_fuel]
  | fuel + 1, 0, _, acc => by simp [dec_chars_fuel]
  | fuel + 1, n + 1, hn, acc => by
      have hdiv : (n + 1) / 10 ≤ fuel := by
        have := Nat.div_lt_self (Nat.succ_pos n) (by norm_num : 1 < 10)
        omega
      rw [show dec_chars_fuel (fuel + 1) (n + 1) =
        dec_chars_fuel fuel ((n + 1) / 10) ++ [Char.ofNat (48 + (n + 1) % 10)] from rfl]
      rw [List.foldl_append, List.length_append]
      rw [dec_chars_foldl fuel ((n + 1) / 10) hdiv acc]
      have hc := (char_digit_spec ((n + 1) % 10) (Nat.mod_lt _ (by norm_num))).1
      simp only [List.foldl_cons, List.foldl_nil, List.length_cons, List.length_nil, hc]
      have hmod : 48 + (n + 1) % 10 - 48 = (n + 1) % 10 := by omega
      rw [hmod, Nat.pow_succ]
      have := Nat.div_add_mod (n + 1) 10
      ring_nf
      omega

/-- The characters of `dec_repr n` are exactly its digit characters. -/
theorem dec_repr_all_digits (n : Nat) : (dec_repr n).data.all Char.isDigit = true := by
  by_cases h0 : n = 0
  · subst h0; rfl
  · rw [dec_repr, if_neg h0]
    exact dec_chars_all_digits n n

/-- The `U256` decimal parser inverts the decimal rendering of any value
below `2 ^ 256`. -/
theorem from_dec_str_dec_repr (n : Nat) (hn : n < 2 ^ 256) :
    from_dec_str (dec_repr n) = some n := by
  by_cases h0 : n = 0
  · subst h0; rfl
  · rw [dec_repr, if_neg h0]
    show from_dec_str (List.asString (dec_chars_fuel n n)) = some n
    rw [from_dec_str]
    have hdata : (List.asString (dec_chars_fuel n n)).data = dec_chars_fuel n n := rfl
    rw [hdata, dec_chars_all_digits n n]
    have := dec_chars_foldl n n (Nat.le_refl n) 0
    simp only [Nat.zero_mul, Nat.zero_add] at this
    rw [this]
    rw [if_pos hn]
    rfl

/-- A string of ASCII digits never carries the `0x` hex prefix. -/
theorem all_digits_not_prefix_0x (s : String) (h : s.data.all Char.isDigit = true) :
    starts_with s "0x" = false := by
  rw [starts_with]
  rw [show ("0x" : String).data = ['0', 'x'] from rfl]
  match hs : s.data with
  | [] => rfl
  | [c] => simp [List.isPrefixOf]
  | c :: c2 :: rest =>
    rw [hs] at h
    simp only [List.all_cons, Bool.and_eq_true] at h
    have hx : ('x' == c2) = false := by
      cases hbeq : 'x' == c2 with
      | false => rfl
      | true =>
        have := eq_of_beq hbeq
        rw [← this] at h
        simp at h
    simp [List.isPrefixOf, hx]

/-- A string of ASCII digits never starts with a minus sign. -/
theorem all_digits_not_prefix_neg (s : String) (h : s.data.all Char.isDigit = true) :
    starts_with s "-" = false := by
  rw [starts_with]
  rw [show ("-" : String).data = ['-'] from rfl]
  match hs : s.data with
  | [] => rfl
  | c :: rest =>
    rw [hs] at h
    simp only [List.all_cons, Bool.and_eq_true] at h
    have hx : ('-' == c) = false := by
      cases hbeq : '-' == c with
      | false => rfl
      | true =>
        have := eq_of_beq hbeq
        rw [← this] at h
        simp at h
    simp [List.isPrefixOf, hx]

/-- Reading back the big-endian digits of a value below `256 ^ n`
recovers the value. -/
theorem beValue_range_map (n : Nat) : (v : Nat) → v < 256 ^ n →
    beValue ((List.range n).map (fun i => v / 256 ^ (n - 1 - i) % 256)) = v := by
  induction n with
  | zero =>
    intro v hv
    have : v = 0 := by simpa using hv
    subst this
    rfl
  | succ n ih =>
    intro v hv
    rw [List.range_succ, List.map_append]
    have hpre : (List.range n).map (fun i => v / 256 ^ (n + 1 - 1 - i) % 256) =
        (List.range n).map (fun i => (v / 256) / 256 ^ (n - 1 - i) % 256) := by
      apply List.map_congr_left
      intro i hi
      have hi' : i < n := List.mem_range.mp hi
      have hexp : n + 1 - 1 - i = (n - 1 - i) + 1 := by omega
      rw [hexp, Nat.pow_succ, Nat.mul_comm, ← Nat.div_div_eq_div_mul]
    rw [hpre]
    have hdivlt : v / 256 < 256 ^ n := by
      rw [Nat.div_lt_iff_lt_mul (by norm_num : 0 < 256)]
      calc v < 256 ^ (n + 1) := hv
        _ = 256 ^ n * 256 := by rw [Nat.pow_succ]
    rw [beValue, List.foldl_append]
    have hfold := ih (v / 256) hdivlt
    rw [beValue] at hfold
    rw [hfold]
    simp only [List.map_cons, List.map_nil, List.foldl_cons, List.foldl_nil]
    have hlast : n + 1 - 1 - n = 0 := by omega
    rw [hlast, Nat.pow_zero, Nat.div_one]
    rw [Nat.mul_comm (v / 256) 256]
    exact Nat.div_add_mod v 256

/-- `to_big_endian` is a faithful 32-byte big-endian rendering of any
value below `2 ^ 256`. -/
theorem beValue_to_big_endian (v : Nat) (hv : v < 2 ^ 256) :
    beValue (to_big_endian v) = v := by
  have h : v < 256 ^ 32 := by
    have : (256 : Nat) ^ 32 = 2 ^ 256 := by norm_num
    omega
  exact beValue_range_map 32 v h

/-- `to_big_endian` always yields exactly 32 bytes. -/
theorem to_big_endian_length (v : Nat) : (to_big_endian v).length = 32 := by
  simp [to_big_endian]

/-- Evaluating the `Uint` arm of `encode_single` on the decimal rendering
of an in-range value: the literal is parsed back to the value, the
overflow check passes, and the 32 big-endian bytes come out. -/
theorem encode_uint_dec (fuel m v : Nat) (hv : v < 2 ^ 256)
    (hm : ¬(m < 256 ∧ v ≥ 2 ^ m)) :
    encode_single_fuel (fuel + 1) (ParamType.Uint m) (dec_repr v) =
      some (Except.ok (to_big_endian v)) := by
  have h0x := all_digits_not_prefix_0x _ (dec_repr_all_digits v)
  have hneg := all_digits_not_prefix_neg _ (dec_repr_all_digits v)
  have hdec := from_dec_str_dec_repr v hv
  simp only [encode_single_fuel, h0x, hneg, hdec, Bool.false_eq_true, if_false, if_neg hm]

/-- C1: the claim says assembling the single dynamic item `uint256[]`
with literal `[1,2,3]` yields the offset word `0x20` followed by a
4-word tail.  Evaluating the code's assembler at exactly that input
shows it returns `Ok` with an empty buffer instead: the loop never
writes head or tail bytes. -/
theorem c1_assemble_example_returns_empty :
    Params.encode [(ParamType.Array (ParamType.Uint 256), "[1,2,3]")] = Except.ok [] := rfl

/-- C2: the claim says `Fixed`/`Ufixed` encoding is always rejected with
an `UnsupportedType` error.  The code instead succeeds with an empty
byte vector for every width pair and every literal. -/
theorem c2_fixed_ufixed_succeed (m n : Nat) (s : String) :
    encode_single (ParamType.Fixed m n) s = some (Except.ok []) ∧
    encode_single (ParamType.Ufixed m n) s = some (Except.ok []) :=
  ⟨rfl, rfl⟩

/-- C3: the claim says `encode(Int(8), "-129")` yields `Overflow`.  The
code range-checks the magnitude against `2 ^ 8` rather than the signed
bound `2 ^ 7`, so it accepts `-129` and emits its 256-bit
two's-complement bytes (31 times `0xff` then `0x7f`); `-128` is also
accepted, as the claim says. -/
theorem c3_int8_neg129_accepted :
    encode_single (ParamType.Int 8) "-129" =
      some (Except.ok (List.replicate 31 255 ++ [127])) ∧
    encode_single (ParamType.Int 8) "-128" =
      some (Except.ok (List.replicate 31 255 ++ [128])) :=
  ⟨rfl, rfl⟩

/-- C4: the claim says `"bytes" ++ N` parses to `FixedBytes(N)` for
`1 ≤ N ≤ 32`.  The code slices the suffix after only four characters
(`"byte"`), so the digit parse always sees a leading `s` and every
`bytesN` string is rejected — here shown for `N = 32` and `N = 1`. -/
theorem c4_bytesN_always_rejected :
    from_str "bytes32" = Except.error "Invalid param type: bytes32, ParseIntError" ∧
    from_str "bytes1" = Except.error "Invalid param type: bytes1, ParseIntError" :=
  ⟨rfl, rfl⟩

/-- C5: the claim says malformed numeric literals surface as an explicit
`InvalidLiteral` error result.  The code instead calls `unwrap()` on the
failed parse and panics (modelled as `none`), both for a malformed
decimal and for malformed hex. -/
theorem c5_malformed_literal_panics :
    encode_single (ParamType.Uint 256) "12a" = none ∧
    encode_single (ParamType.Int 256) "0xzz" = none :=
  ⟨rfl, rfl⟩

/-- C6 counterexample: the claim says `String` encoding applies no hex
decoding even when the literal begins with `0x`.  On `"0x41"` the code
hex-decodes the literal to the single byte `0x41` (length word 1),
which differs from the claimed raw-text layout (length word 4 and the
four text bytes of `"0x41"`). -/
theorem c6_hex_prefixed_string_is_decoded :
    encode_single ParamType.String "0x41" =
      some (Except.ok (to_big_endian 1 ++ pad32 [65])) ∧
    to_big_endian 1 ++ pad32 [65] ≠ to_big_endian 4 ++ pad32 [48, 120, 52, 49] :=
  ⟨rfl, by decide⟩

/-- C6 (amended): for every literal without the `0x` prefix, `String`
encoding is the 32-byte big-endian length word of the literal's raw
UTF-8 text bytes followed by those bytes right-zero-padded to a 32-byte
multiple; literals starting with `0x` are instead hex-decoded first. -/
theorem c6_string_raw_text_layout (s : String) (h0x : starts_with s "0x" = false)
    (hlen : (utf8Bytes s).length < 2 ^ 256) :
    encode_single ParamType.String s =
      some (Except.ok (to_big_endian (utf8Bytes s).length ++ pad32 (utf8Bytes s))) := by
  have hpb : parse_bytes s = some ((utf8Bytes s).length, pad32 (utf8Bytes s)) := by
    rw [parse_bytes, h0x]
    rfl
  have hlenword : encode_single_fuel 2 (ParamType.Uint 256) (dec_repr (utf8Bytes s).length) =
      some (Except.ok (to_big_endian (utf8Bytes s).length)) :=
    encode_uint_dec 1 256 (utf8Bytes s).length hlen (fun h => absurd h.1 (lt_irrefl 256))
  have hstep : encode_single ParamType.String s =
      (match parse_bytes s with
       | none => none
       | some (len, value_bytes) =>
         match encode_single_fuel 2 (ParamType.Uint 256) (dec_repr len) with
         | some (Except.ok len_word) => some (Except.ok (len_word ++ value_bytes))
         | _ => none) := rfl
  rw [hstep, hpb]
  dsimp only
  rw [hlenword]

/-- C6 witness: the amended layout evaluated at the literal `"dave"`. -/
theorem c6_string_witness :
    starts_with "dave" "0x" = false ∧ (utf8Bytes "dave").length < 2 ^ 256 ∧
    encode_single ParamType.String "dave" =
      some (Except.ok (to_big_endian (utf8Bytes "dave").length ++ pad32 (utf8Bytes "dave"))) :=
  ⟨rfl, by decide, c6_string_raw_text_layout "dave" rfl (by decide)⟩

/-- C7: the claim says `encode(Address, h)` equals `encode(Uint(160), h)`
for `0x`-prefixed `h`, with hex interpretation.  The code strips the
prefix before delegating, so the delegate re-parses the remaining digits
as decimal: `"0xff"` panics in the decimal parser (`none`) while
`Uint(160)` encodes it as 255, and `"0x1234"` silently encodes decimal
1234 where `Uint(160)` encodes hex 0x1234 = 4660. -/
theorem c7_address_differs_from_uint160 :
    encode_single ParamType.Address "0xff" = none ∧
    encode_single (ParamType.Uint 160) "0xff" = some (Except.ok (to_big_endian 255)) ∧
    encode_single ParamType.Address "0x1234" = some (Except.ok (to_big_endian 1234)) ∧
    encode_single (ParamType.Uint 160) "0x1234" = some (Except.ok (to_big_endian 4660)) :=
  ⟨rfl, rfl, rfl, rfl⟩

/-- C8: `is_dynamic(t)` is true exactly on the specification's
characterisation — `Bytes`, `String`, `Array(_)`, a nonempty
`FixedArray` of a dynamic element, or a `Tuple` with a dynamic member —
and in particular `FixedArray(Uint(256), 0)` is static. -/
theorem c8_is_dynamic_characterised :
    (∀ t : ParamType, is_dynamic t = dynamicSpec t) ∧
    is_dynamic (ParamType.FixedArray (ParamType.Uint 256) 0) = false :=
  ⟨is_dynamic_eq_spec, rfl⟩

/-- C9: for every byte-multiple width `bits ≤ 256` and every `v` below
`2 ^ bits`, encoding `Uint(bits)` with the decimal literal of `v` yields
exactly 32 bytes whose big-endian value is `v`. -/
theorem c9_uint_roundtrip (bits v : Nat) (_h8 : 8 ≤ bits) (h256 : bits ≤ 256)
    (_hmod : bits % 8 = 0) (hv : v < 2 ^ bits) :
    encode_single (ParamType.Uint bits) (dec_repr v) = some (Except.ok (to_big_endian v)) ∧
    (to_big_endian v).length = 32 ∧ beValue (to_big_endian v) = v := by
  have hv' : v < 2 ^ 256 := lt_of_lt_of_le hv (Nat.pow_le_pow_right (by norm_num) h256)
  refine ⟨?_, to_big_endian_length v, beValue_to_big_endian v hv'⟩
  exact encode_uint_dec 2 bits v hv' (fun h => (not_lt.mpr h.2) hv)

/-- C9 witness: the round trip evaluated at `Uint(8)` and `v = 3`. -/
theorem c9_uint_witness :
    (8 ≤ 8 ∧ 8 ≤ 256 ∧ 8 % 8 = 0 ∧ 3 < 2 ^ 8) ∧
    (encode_single (ParamType.Uint 8) (dec_repr 3) = some (Except.ok (to_big_endian 3)) ∧
      (to_big_endian 3).length = 32 ∧ beValue (to_big_endian 3) = 3) :=
  ⟨by decide, c9_uint_roundtrip 8 3 (by decide) (by decide) (by decide) (by decide)⟩

/-- The `while` loop of `Params::encode` returns its buffer unchanged:
every iteration replaces the worklist by the empty `next_items`, so no
bytes are ever appended. -/
theorem encodeLoopFuel_buf (fuel : Nat) : ∀ (items : List ParamItem) (t : Nat) (buf : List Nat),
    encodeLoopFuel fuel items t buf = buf := by
  induction fuel with
  | zero => intro items t buf; rfl
  | succ f ih =>
    intro items t buf
    cases items with
    | nil => rfl
    | cons a rest => exact ih [] (loopBody (a :: rest) t).snd buf

/-- C10: `Params::encode` returns `Ok` with an empty byte buffer on
every input list — its loop fills nothing into `next_items` and never
writes to `buf`, and no error path exists. -/
theorem c10_params_encode_always_empty (items0 : List (ParamType × String)) :
    Params.encode items0 = Except.ok [] := by
  rw [Params.encode]
  rw [encodeLoopFuel_buf]
